import Mathlib

/-!
Verification of the voice-agent core against its specification.

Shallow embedding of the relevant parts of the repository:
  - the Conversation Engine round loop (`app/services/llm_agent.py`, `LLMAgent.chat`),
  - the history trimming performed by `chat`,
  - the energy-based utterance segmenter (`app/routes/voice.py`,
    `websocket_media_stream`, media branch),
  - the calendar slot sweep (`app/services/calendar_service.py`,
    `CalendarService.get_available_slots`),
  - the Turn Pipeline entry points (`app/services/call_orchestrator.py`,
    `process_customer_audio` / `process_customer_text`).

External collaborators (reasoning backend, speech-to-text, text-to-speech,
tool execution) are modelled as function parameters, as the spec treats them
as opaque interfaces.  Machine-level details (byte strings, audio payloads)
are modelled as `List Nat`.
-/

/-! ## Conversation data model (`app/models`, message dicts used by `chat`) -/

inductive Role where
  | system
  | user
  | assistant
  | tool
deriving DecidableEq

/-- A tool invocation record produced by the reasoning backend
(`choice.message.tool_calls` entries). -/
structure ToolCall where
  id : String
  name : String
  arguments : String
deriving DecidableEq

/-- One conversation message.  The python code uses dicts; the fields below
cover all the shapes that occur in `LLMAgent.chat` (plain user/assistant
messages, the assistant tool-invocation record and tool-result records). -/
structure Message where
  role : Role
  content : String
  tool_calls : List ToolCall := []
  tool_call_id : String := ""
deriving DecidableEq

/-- A reply of the reasoning backend: `choice.message` with its `content`
and `tool_calls` attributes.  The code branches on the truthiness of
`tool_calls`, i.e. on whether the list is nonempty. -/
structure BackendReply where
  content : Option String
  tool_calls : List ToolCall
deriving DecidableEq

/-- Return value of `LLMAgent.chat`:
`(agent_response_text, updated_conversation_history, tools_called_list)`. -/
structure ChatResult where
  text : String
  history : List Message
  tools_called : List String
deriving DecidableEq

/-! ## History trimming (`llm_agent.py` lines 176-180) -/

/-- `MAX_HISTORY` trimming: if the history exceeds 40 entries, keep the
first 4 and the last 36 (`conversation_history[:4] + conversation_history[-36:]`). -/
def trimHistory (history : List Message) : List Message :=
  if 40 < history.length then
    history.take 4 ++ history.drop (history.length - 36)
  else
    history

/-! ## Fixed phrases returned by the code -/

/-- Fallback returned by `chat` when the backend invocation raises
(`llm_agent.py` lines 203-205). -/
def apiFallback : String :=
  "I\x27m sorry, I\x27m having a bit of trouble right now. Could you repeat that?"

/-- Stall-recovery phrase returned by `chat` when the round budget is
exhausted (`llm_agent.py` lines 259-261). -/
def stallPhrase : String :=
  "I apologize for the delay. Let me help you with that. Could you tell me what you\x27d like to do?"

/-- Fallback spoken when speech-to-text raises
(`call_orchestrator.py` line 93). -/
def sttFallback : String :=
  "I\x27m sorry, I didn\x27t catch that. Could you say that again?"

/-- Fallback spoken when the conversation engine raises out of `chat`
(`call_orchestrator.py` lines 113-116). -/
def llmFallback : String :=
  "I apologize, I\x27m experiencing a brief issue. Could you repeat what you said?"

/-! ## Conversation Engine round loop (`LLMAgent.chat`, lines 188-264)

The reasoning backend is abstracted as a function from the round index to
either an error (a raised exception in `client.chat.completions.create`) or
a `BackendReply`; tool execution (`_execute_tool`) is an opaque function
from a tool call to its result string. -/

/-- The assistant message appended when the backend requests tools
(`messages.append(choice.message.model_dump())`). -/
def assistantToolMessage (reply : BackendReply) : Message :=
  { role := .assistant, content := reply.content.getD "",
    tool_calls := reply.tool_calls }

/-- The tool-result message appended for one tool call
(`llm_agent.py` lines 228-234). -/
def toolResultMessage (execTool : ToolCall → String) (tc : ToolCall) : Message :=
  { role := .tool, content := execTool tc, tool_call_id := tc.id }

/-- The bounded round loop of `chat` (`for round_num in range(max_tool_rounds)`).
Arguments: current round index, remaining rounds, outbound message list,
accumulated `tools_called`.  Returns the `ChatResult` together with the
number of backend invocations performed. -/
def chatRounds (backend : Nat → Except String BackendReply)
    (execTool : ToolCall → String)
    (history : List Message) (user_message : String) :
    Nat → Nat → List Message → List String → ChatResult × Nat
  | _, 0, _, tools_called =>
    ({ text := stallPhrase, history := history, tools_called := tools_called }, 0)
  | round_num, rounds_left + 1, messages, tools_called =>
    match backend round_num with
    | .error _ =>
      ({ text := apiFallback, history := history, tools_called := tools_called }, 1)
    | .ok reply =>
      if reply.tool_calls.isEmpty then
        let agent_response := reply.content.getD ""
        ({ text := agent_response,
           history := history ++
             [{ role := .user, content := user_message },
              { role := .assistant, content := agent_response }],
           tools_called := tools_called }, 1)
      else
        let messages2 := (messages ++ [assistantToolMessage reply]) ++
          reply.tool_calls.map (toolResultMessage execTool)
        let rest := chatRounds backend execTool history user_message
          (round_num + 1) rounds_left messages2
          (tools_called ++ reply.tool_calls.map (fun tc => tc.name))
        (rest.1, rest.2 + 1)

/-- `LLMAgent.chat`: trim the history, build the outbound message list
(system message, trimmed history, new user message), then run at most 5
rounds.  Returns the result and the backend invocation count. -/
def chat (backend : Nat → Except String BackendReply)
    (execTool : ToolCall → String) (system_message : Message)
    (conversation_history : List Message) (user_message : String) :
    ChatResult × Nat :=
  let trimmed := trimHistory conversation_history
  chatRounds backend execTool trimmed user_message 0 5
    (system_message :: trimmed ++ [{ role := .user, content := user_message }]) []

/-! ## Utterance segmenter (`voice.py`, media branch, lines 108-157)

A frame is its raw payload bytes; the RMS energy computation
(`audioop.ulaw2lin` / `audioop.rms`) is abstracted as a function
`rmsOf : List Nat → Nat` (a decode failure corresponds to `rmsOf p = 0`). -/

/-- The per-call segmenter state: accumulated buffer, `is_speaking`,
`silence_count`, `is_processing` (the suppression guard). -/
structure SegState where
  buffer : List Nat
  speaking : Bool
  silence : Nat
  suppressed : Bool
deriving DecidableEq

/-- The initial segmenter state of a fresh (or just reset) call. -/
def segInit : SegState :=
  { buffer := [], speaking := false, silence := 0, suppressed := false }

/-- Processing of one `media` frame.  Mirrors `voice.py` lines 108-157:
skip while suppressed; skip empty payloads; append bytes; classify by RMS
(`> 200` is speech); emit when speaking with at least 30 consecutive silent
frames and strictly more than 3200 buffered bytes, resetting state and
setting the suppression guard. -/
def segStep (rmsOf : List Nat → Nat) (s : SegState) (payload : List Nat) :
    SegState × Option (List Nat) :=
  if s.suppressed then (s, none)
  else if payload = [] then (s, none)
  else
    let buffer := s.buffer ++ payload
    let rms := rmsOf payload
    let speaking := if 200 < rms then true else s.speaking
    let silence :=
      if 200 < rms then 0
      else if s.speaking then s.silence + 1 else s.silence
    if speaking = true ∧ 30 ≤ silence ∧ 3200 < buffer.length then
      ({ buffer := [], speaking := false, silence := 0, suppressed := true },
        some buffer)
    else
      ({ buffer := buffer, speaking := speaking, silence := silence,
         suppressed := s.suppressed }, none)

/-- Run the segmenter over a list of frames, collecting emitted utterances
in order. -/
def segRun (rmsOf : List Nat → Nat) : SegState → List (List Nat) →
    SegState × List (List Nat)
  | s, [] => (s, [])
  | s, f :: fs =>
    let step := segStep rmsOf s f
    let rest := segRun rmsOf step.1 fs
    (rest.1, step.2.toList ++ rest.2)

/-! ## Calendar slot sweep (`calendar_service.py` lines 81-152)

Times are minutes since local midnight; a busy period is a pair
`(start, end)`.  The while loop strictly increases `current` on every
iteration (a conflicting busy period `b` satisfies `current < b.2`, and a
free slot advances by 30), so from `current = 540` it performs fewer than
602 iterations before `current + duration` exceeds `1140`; the fuel of
1200 used below therefore never runs out and the fueled recursion computes
exactly the value of the python loop. -/

/-- Conflict test of one candidate slot against one busy period
(`current < busy_end and slot_end > busy_start`). -/
def slotConflict (current slotEnd : Nat) (busy : Nat × Nat) : Bool :=
  decide (current < busy.2) && decide (busy.1 < slotEnd)

/-- The sweep loop: at each candidate start, jump to the end of the first
conflicting busy period, or emit the slot and advance by the 30-minute
stride. -/
def sweep (busy : List (Nat × Nat)) (dur dayEnd : Nat) :
    Nat → Nat → List (Nat × Nat)
  | 0, _ => []
  | fuel + 1, current =>
    if current + dur ≤ dayEnd then
      match busy.find? (slotConflict current (current + dur)) with
      | some b => sweep busy dur dayEnd fuel b.2
      | none => (current, current + dur) :: sweep busy dur dayEnd fuel (current + 30)
    else []

/-- Business-day opening instant, 09:00, in minutes. -/
def dayStartMin : Nat := 9 * 60

/-- Business-day closing instant, 19:00, in minutes. -/
def dayEndMin : Nat := 19 * 60

/-- `CalendarService.get_available_slots` restricted to its slot-search
core: given the normalized busy periods of the day and a duration in
minutes, return the available slots as `(start, end)` minute pairs. -/
def availableSlots (busy : List (Nat × Nat)) (durationMinutes : Nat) :
    List (Nat × Nat) :=
  sweep busy durationMinutes dayEndMin 1200 dayStartMin

/-! ## Turn Pipeline entry points (`call_orchestrator.py`)

The collaborators are opaque fallible functions; `.error` models a raised
exception.  The session store `_active_sessions` is an association list;
`getSession` is `dict.get`, `setSession` is assignment to an existing key. -/

/-- `CallSession` (from `app/models/schemas.py`), restricted to the fields
the orchestrator reads or writes. -/
structure CallSession where
  call_sid : String
  customer_phone : Option String
  conversation_history : List Message
  is_active : Bool
deriving DecidableEq

/-- Session-store lookup (`self._active_sessions.get(call_sid)`). -/
def getSession (sessions : List (String × CallSession)) (sid : String) :
    Option CallSession :=
  (sessions.find? (fun p => p.1 == sid)).map Prod.snd

/-- Session-store assignment for a key already present
(`self._active_sessions[call_sid] = session`). -/
def setSession (sessions : List (String × CallSession)) (sid : String)
    (s : CallSession) : List (String × CallSession) :=
  sessions.map (fun p => if p.1 == sid then (sid, s) else p)

/-- The fresh session created by `process_customer_text` for an unknown
identifier (`CallSession(call_sid=call_sid, started_at=...)`). -/
def newSession (sid : String) : CallSession :=
  { call_sid := sid, customer_phone := none, conversation_history := [],
    is_active := true }

/-- Outcome of one orchestrator entry-point call: the returned value (or a
propagated exception), the resulting session store, and an instrumentation
trace of collaborator invocations (speech-to-text count, conversation-engine
count, and the list of texts handed to speech synthesis). -/
structure TurnOutcome where
  result : Except String (String × String)
  sessions : List (String × CallSession)
  sttCalls : Nat
  chatCalls : Nat
  ttsTexts : List String

/-- `CallOrchestrator.process_customer_audio` (lines 67-133): unknown call
identifier returns `("", "")` untouched; speech-to-text failure speaks
`sttFallback` (synthesis failure there propagates); blank transcript
returns `("", "")`; conversation-engine failure speaks `llmFallback`; on
success the session history is updated and the response synthesized
(synthesis failure degrades to empty audio). -/
def process_customer_audio
    (stt : List Nat → Except String String)
    (chatFn : List Message → String → Except String (String × List Message × List String))
    (tts : String → Except String String)
    (sessions : List (String × CallSession)) (call_sid : String)
    (audio : List Nat) : TurnOutcome :=
  match getSession sessions call_sid with
  | none => ⟨.ok ("", ""), sessions, 0, 0, []⟩
  | some session =>
    match stt audio with
    | .error _ =>
      match tts sttFallback with
      | .error e2 => ⟨.error e2, sessions, 1, 0, [sttFallback]⟩
      | .ok errorAudio => ⟨.ok (sttFallback, errorAudio), sessions, 1, 0, [sttFallback]⟩
    | .ok customer_text =>
      if customer_text.trim = "" then ⟨.ok ("", ""), sessions, 1, 0, []⟩
      else
        match chatFn session.conversation_history customer_text with
        | .error _ =>
          match tts llmFallback with
          | .error e2 => ⟨.error e2, sessions, 1, 1, [llmFallback]⟩
          | .ok errorAudio => ⟨.ok (llmFallback, errorAudio), sessions, 1, 1, [llmFallback]⟩
        | .ok (agent_response, updated_history, _tools) =>
          let sessions2 := setSession sessions call_sid
            { session with conversation_history := updated_history }
          match tts agent_response with
          | .error _ => ⟨.ok (agent_response, ""), sessions2, 1, 1, [agent_response]⟩
          | .ok audio2 => ⟨.ok (agent_response, audio2), sessions2, 1, 1, [agent_response]⟩

/-- `CallOrchestrator.process_customer_text` (lines 135-169): creates a
fresh session for an unknown identifier, always invokes the conversation
engine (a failure there propagates), updates the session history, and
synthesizes the response with silent degradation. -/
def process_customer_text
    (chatFn : List Message → String → Except String (String × List Message × List String))
    (tts : String → Except String String)
    (sessions : List (String × CallSession)) (call_sid : String)
    (text : String) : TurnOutcome :=
  let found := getSession sessions call_sid
  let session := found.getD (newSession call_sid)
  let sessions1 :=
    match found with
    | some _ => sessions
    | none => sessions ++ [(call_sid, newSession call_sid)]
  match chatFn session.conversation_history text with
  | .error e => ⟨.error e, sessions1, 0, 1, []⟩
  | .ok (agent_response, updated_history, _tools) =>
    let sessions2 := setSession sessions1 call_sid
      { session with conversation_history := updated_history }
    match tts agent_response with
    | .error _ => ⟨.ok (agent_response, ""), sessions2, 0, 1, [agent_response]⟩
    | .ok audio2 => ⟨.ok (agent_response, audio2), sessions2, 0, 1, [agent_response]⟩

/-! ## Theorems -/

/-- Claim C2: trimming a history of length at most 40 is the identity;
trimming a history of length 100 yields exactly 40 entries whose first 4
are the first 4 entries of the input and whose remaining 36 are the last
36 entries of the input, in order. -/
theorem trim_history_spec (h1 h2 : List Message)
    (hlen1 : h1.length ≤ 40) (hlen2 : h2.length = 100) :
    trimHistory h1 = h1 ∧
    (trimHistory h2).length = 40 ∧
    (trimHistory h2).take 4 = h2.take 4 ∧
    (trimHistory h2).drop 4 = h2.drop 64 := by
  have e2 : trimHistory h2 = h2.take 4 ++ h2.drop 64 := by
    unfold trimHistory
    rw [if_pos (by omega), hlen2]
  have htk : (h2.take 4).length = 4 := by
    rw [List.length_take]; omega
  refine ⟨?_, ?_, ?_, ?_⟩
  · unfold trimHistory
    rw [if_neg (by omega)]
  · rw [e2]
    simp only [List.length_append, List.length_take, List.length_drop, hlen2]
    omega
  · rw [e2, List.take_left' htk]
  · rw [e2, List.drop_left' htk]

/-- A sample user message, used by concrete witnesses. -/
def msgU : Message := { role := .user, content := "hello" }

/-- Witness for `trim_history_spec` at concrete histories of lengths 3
and 100. -/
theorem trim_history_spec_witness :
    trimHistory (List.replicate 3 msgU) = List.replicate 3 msgU ∧
    (trimHistory (List.replicate 100 msgU)).length = 40 ∧
    (trimHistory (List.replicate 100 msgU)).take 4 = (List.replicate 100 msgU).take 4 ∧
    (trimHistory (List.replicate 100 msgU)).drop 4 = (List.replicate 100 msgU).drop 64 :=
  trim_history_spec (List.replicate 3 msgU) (List.replicate 100 msgU)
    (by simp) (by simp)

/-- Claim C8: with no busy periods and a 60-minute duration, the first
returned slot is 09:00-10:00 (minutes 540-600), the last is 18:00-19:00
(minutes 1080-1140), and consecutive slot starts are 30 minutes apart. -/
theorem slots_empty_calendar :
    (availableSlots [] 60).head? = some (540, 600) ∧
    (availableSlots [] 60).getLast? = some (1080, 1140) ∧
    ((availableSlots [] 60).zip (availableSlots [] 60).tail).all
      (fun p => p.2.1 == p.1.1 + 30) = true := by decide

/-- Claim C4: with the single busy period 10:00-11:00 (minutes 600-660),
window 09:00-19:00 and 60-minute duration, no returned slot starts at
10:00, slots starting at 09:00 and 11:00 are both returned; and in
general, whenever a candidate start conflicts with a busy period, the
sweep continues exactly at the end of the first conflicting busy period. -/
theorem slot_sweep_busy_interval (busy : List (Nat × Nat))
    (dur dayEnd fuel current : Nat) (b : Nat × Nat)
    (hwin : current + dur ≤ dayEnd)
    (hfind : busy.find? (slotConflict current (current + dur)) = some b) :
    (∀ s ∈ availableSlots [(600, 660)] 60, s.1 ≠ 600) ∧
    (540, 600) ∈ availableSlots [(600, 660)] 60 ∧
    (660, 720) ∈ availableSlots [(600, 660)] 60 ∧
    sweep busy dur dayEnd (fuel + 1) current = sweep busy dur dayEnd fuel b.2 := by
  refine ⟨by decide, by decide, by decide, ?_⟩
  simp only [sweep, if_pos hwin, hfind]

/-- Witness for `slot_sweep_busy_interval`: the candidate 09:30 (570)
overlaps the busy period 10:00-11:00, and the sweep continues at 11:00. -/
theorem slot_sweep_busy_interval_witness :
    (∀ s ∈ availableSlots [(600, 660)] 60, s.1 ≠ 600) ∧
    (540, 600) ∈ availableSlots [(600, 660)] 60 ∧
    (660, 720) ∈ availableSlots [(600, 660)] 60 ∧
    sweep [(600, 660)] 60 1140 8 570 = sweep [(600, 660)] 60 1140 7 660 :=
  slot_sweep_busy_interval [(600, 660)] 60 1140 7 570 (600, 660)
    (by decide) (by decide)

/-! ### Conversation Engine round loop -/

/-- If the backend replies with a nonempty tool-call list at every round,
the round loop runs all remaining rounds, performing exactly one backend
invocation per round, and ends in the stall case: stall phrase and the
`history` argument (the trimmed input history) returned unchanged. -/
theorem chatRounds_all_tools (backend : Nat → Except String BackendReply)
    (execTool : ToolCall → String) (history : List Message) (user : String)
    (halways : ∀ r, ∃ reply, backend r = .ok reply ∧ reply.tool_calls ≠ []) :
    ∀ k round messages tools,
      (chatRounds backend execTool history user round k messages tools).1.text
        = stallPhrase ∧
      (chatRounds backend execTool history user round k messages tools).1.history
        = history ∧
      (chatRounds backend execTool history user round k messages tools).2 = k := by
  intro k
  induction k with
  | zero => intro round messages tools; exact ⟨rfl, rfl, rfl⟩
  | succ n ih =>
    intro round messages tools
    obtain ⟨reply, hb, hne⟩ := halways round
    have hempty : reply.tool_calls.isEmpty = false :=
      List.isEmpty_eq_false.mpr hne
    simp only [chatRounds, hb, hempty, Bool.false_eq_true, if_false]
    obtain ⟨h1, h2, h3⟩ := ih (round + 1)
      ((messages ++ [assistantToolMessage reply]) ++
        reply.tool_calls.map (toolResultMessage execTool))
      (tools ++ reply.tool_calls.map (fun tc => tc.name))
    exact ⟨h1, h2, by rw [h3]⟩

/-- Claim C1 (amended): against a backend that always requests tool calls,
one `chat` call performs at most 5 backend invocations, and on exhaustion
returns the stall-recovery phrase together with exactly the trimmed input
history (equal to the input history whenever its length is at most 40) —
in particular no tool-invocation or tool-result record is appended. -/
theorem chat_round_budget_exhaustion (backend : Nat → Except String BackendReply)
    (execTool : ToolCall → String) (sysMsg : Message)
    (history : List Message) (user : String)
    (halways : ∀ r, ∃ reply, backend r = .ok reply ∧ reply.tool_calls ≠ []) :
    (chat backend execTool sysMsg history user).2 ≤ 5 ∧
    (chat backend execTool sysMsg history user).1.text = stallPhrase ∧
    (chat backend execTool sysMsg history user).1.history = trimHistory history := by
  obtain ⟨h1, h2, h3⟩ := chatRounds_all_tools backend execTool
    (trimHistory history) user halways 5 0
    (sysMsg :: trimHistory history ++ [{ role := .user, content := user }]) []
  exact ⟨le_of_eq h3, h1, h2⟩

/-- A backend that always requests the same single tool call. -/
def cexBackendTools : Nat → Except String BackendReply :=
  fun _ => .ok { content := none,
                 tool_calls := [{ id := "t1", name := "check_availability", arguments := "d" }] }

/-- A sample system message for concrete inputs. -/
def sysEx : Message := { role := .system, content := "persona" }

/-- Witness for `chat_round_budget_exhaustion` at a concrete always-tool
backend and the empty input history. -/
theorem chat_round_budget_exhaustion_witness :
    (chat cexBackendTools (fun _ => "r") sysEx [] "hi").2 ≤ 5 ∧
    (chat cexBackendTools (fun _ => "r") sysEx [] "hi").1.text = stallPhrase ∧
    (chat cexBackendTools (fun _ => "r") sysEx [] "hi").1.history = trimHistory [] :=
  chat_round_budget_exhaustion cexBackendTools (fun _ => "r") sysEx [] "hi"
    (fun _ => ⟨_, rfl, by simp⟩)

/-- A sample input history of length 41, above the trimming bound. -/
def cexHistory : List Message := List.replicate 41 { role := .user, content := "x" }

/-- Counterexample to claim C1 as stated: with an always-tool backend and
an input history of 41 entries, the history returned on exhaustion is the
trimmed history of 40 entries, not the input history. -/
theorem chat_round_budget_history_cex :
    (chat cexBackendTools (fun _ => "r") sysEx cexHistory "hi").1.history
      ≠ cexHistory := by decide

/-- If the first `r` rounds are tool rounds and the backend invocation of
round `r` raises, the round loop aborts there and returns the API fallback
phrase together with the `history` argument (the trimmed input history). -/
theorem chatRounds_error (backend : Nat → Except String BackendReply)
    (execTool : ToolCall → String) (history : List Message) (user : String)
    (e : String) :
    ∀ r k round messages tools, r < k →
      (∀ i, i < r → ∃ reply, backend (round + i) = .ok reply ∧ reply.tool_calls ≠ []) →
      backend (round + r) = .error e →
      (chatRounds backend execTool history user round k messages tools).1.text
        = apiFallback ∧
      (chatRounds backend execTool history user round k messages tools).1.history
        = history := by
  intro r
  induction r with
  | zero =>
    intro k round messages tools hk _ herr
    obtain ⟨m, rfl⟩ : ∃ m, k = m + 1 := ⟨k - 1, by omega⟩
    rw [Nat.add_zero] at herr
    refine ⟨?_, ?_⟩ <;> simp only [chatRounds, herr]
  | succ j ih =>
    intro k round messages tools hk hprev herr
    obtain ⟨m, rfl⟩ : ∃ m, k = m + 1 := ⟨k - 1, by omega⟩
    obtain ⟨reply, hb, hne⟩ := hprev 0 (by omega)
    rw [Nat.add_zero] at hb
    have hempty : reply.tool_calls.isEmpty = false :=
      List.isEmpty_eq_false.mpr hne
    simp only [chatRounds, hb, hempty, Bool.false_eq_true, if_false]
    exact ih m (round + 1)
      ((messages ++ [assistantToolMessage reply]) ++
        reply.tool_calls.map (toolResultMessage execTool))
      (tools ++ reply.tool_calls.map (fun tc => tc.name))
      (by omega)
      (fun i hij => by
        have h := hprev (i + 1) (by omega)
        rwa [show round + (i + 1) = round + 1 + i by omega] at h)
      (by rwa [show round + 1 + j = round + (j + 1) by omega])

/-- Claim C5 (amended): if the backend invocation raises at some round
(all earlier rounds being tool rounds), `chat` aborts immediately and
returns the fixed fallback phrase together with exactly the trimmed input
history (equal to the input history whenever its length is at most 40) —
no tool record produced earlier in the turn is persisted. -/
theorem chat_backend_error_fallback (backend : Nat → Except String BackendReply)
    (execTool : ToolCall → String) (sysMsg : Message)
    (history : List Message) (user : String) (r : Nat) (e : String)
    (hr : r < 5)
    (hprev : ∀ i, i < r → ∃ reply, backend i = .ok reply ∧ reply.tool_calls ≠ [])
    (herr : backend r = .error e) :
    (chat backend execTool sysMsg history user).1.text = apiFallback ∧
    (chat backend execTool sysMsg history user).1.history = trimHistory history := by
  have h := chatRounds_error backend execTool (trimHistory history) user e r 5 0
    (sysMsg :: trimHistory history ++ [{ role := .user, content := user }]) []
    hr
    (fun i hi => by rw [Nat.zero_add]; exact hprev i hi)
    (by rw [Nat.zero_add]; exact herr)
  exact h

/-- A backend whose invocation always raises. -/
def cexBackendErr : Nat → Except String BackendReply := fun _ => .error "boom"

/-- Witness for `chat_backend_error_fallback`: the backend raises at round
0 with the empty input history. -/
theorem chat_backend_error_fallback_witness :
    (chat cexBackendErr (fun _ => "r") sysEx [] "hi").1.text = apiFallback ∧
    (chat cexBackendErr (fun _ => "r") sysEx [] "hi").1.history = trimHistory [] :=
  chat_backend_error_fallback cexBackendErr (fun _ => "r") sysEx [] "hi" 0 "boom"
    (by omega) (fun i hi => absurd hi (by omega)) rfl

/-- Counterexample to claim C5 as stated: with a backend raising at round
0 and an input history of 41 entries, the returned history is the trimmed
history of 40 entries, not the unchanged input history. -/
theorem chat_backend_error_history_cex :
    (chat cexBackendErr (fun _ => "r") sysEx cexHistory "hi").1.history
      ≠ cexHistory := by decide

/-- Claim C6 (amended): when the backend first requests tool calls and
then returns plain text, `chat` returns that text, the returned history is
exactly the trimmed input history (equal to the input whenever its length
is at most 40) extended by the two entries user-then-assistant with no
tool-internal records, and the tools-called list has one entry per
invocation of the first round, in order. -/
theorem chat_tool_round_then_text (backend : Nat → Except String BackendReply)
    (execTool : ToolCall → String) (sysMsg : Message)
    (history : List Message) (user : String) (reply0 reply1 : BackendReply)
    (h0 : backend 0 = .ok reply0) (h0ne : reply0.tool_calls ≠ [])
    (h1 : backend 1 = .ok reply1) (h1e : reply1.tool_calls = []) :
    (chat backend execTool sysMsg history user).1.text = reply1.content.getD "" ∧
    (chat backend execTool sysMsg history user).1.history =
      trimHistory history ++
        [{ role := .user, content := user },
         { role := .assistant, content := reply1.content.getD "" }] ∧
    (chat backend execTool sysMsg history user).1.tools_called =
      reply0.tool_calls.map (fun tc => tc.name) := by
  have hempty0 : reply0.tool_calls.isEmpty = false :=
    List.isEmpty_eq_false.mpr h0ne
  have hempty1 : reply1.tool_calls.isEmpty = true :=
    List.isEmpty_iff.mpr h1e
  unfold chat
  refine ⟨?_, ?_, ?_⟩ <;>
    simp only [chatRounds, h0, hempty0, Bool.false_eq_true, if_false, h1,
      hempty1, if_true, List.nil_append]

/-- A backend that requests one knowledge-base search, then answers in
plain text. -/
def cexBackendTwo : Nat → Except String BackendReply :=
  fun r =>
    if r = 0 then
      .ok { content := none,
            tool_calls := [{ id := "tc1", name := "search_knowledge_base", arguments := "q" }] }
    else
      .ok { content := some "Hello", tool_calls := [] }

/-- Witness for `chat_tool_round_then_text` at the concrete two-phase
backend and the empty input history. -/
theorem chat_tool_round_then_text_witness :
    (chat cexBackendTwo (fun _ => "r") sysEx [] "hi").1.text = "Hello" ∧
    (chat cexBackendTwo (fun _ => "r") sysEx [] "hi").1.history =
      trimHistory [] ++
        [{ role := .user, content := "hi" },
         { role := .assistant, content := "Hello" }] ∧
    (chat cexBackendTwo (fun _ => "r") sysEx [] "hi").1.tools_called =
      ["search_knowledge_base"] :=
  chat_tool_round_then_text cexBackendTwo (fun _ => "r") sysEx [] "hi"
    { content := none,
      tool_calls := [{ id := "tc1", name := "search_knowledge_base", arguments := "q" }] }
    { content := some "Hello", tool_calls := [] }
    rfl (by simp) rfl rfl

/-- Counterexample to claim C6 as stated: with the two-phase backend and
an input history of 41 entries, the returned history is not the input
history extended by the two new entries (it is the trimmed history so
extended). -/
theorem chat_tool_round_history_cex :
    (chat cexBackendTwo (fun _ => "r") sysEx cexHistory "hi").1.history
      ≠ cexHistory ++
        [{ role := .user, content := "hi" },
         { role := .assistant, content := "Hello" }] := by decide

/-! ### Utterance segmenter -/

/-- One frame leaves a suppressed state untouched and emits nothing. -/
theorem segStep_suppressed (rmsOf : List Nat → Nat) (s : SegState)
    (p : List Nat) (h : s.suppressed = true) :
    segStep rmsOf s p = (s, none) := by
  unfold segStep
  rw [if_pos h]

/-- A whole frame sequence leaves a suppressed state untouched and emits
nothing. -/
theorem segRun_of_suppressed (rmsOf : List Nat → Nat) (s : SegState)
    (frames : List (List Nat)) (h : s.suppressed = true) :
    segRun rmsOf s frames = (s, []) := by
  induction frames with
  | nil => rfl
  | cons f fs ih =>
    simp only [segRun, segStep_suppressed rmsOf s f h, ih, Option.toList,
      List.nil_append]

/-- Claim C7: while the suppressed (is-processing) flag is true, every
incoming media frame leaves the segmenter state unchanged and no utterance
is emitted, regardless of the frames. -/
theorem segmenter_suppression_invariant (rmsOf : List Nat → Nat)
    (s : SegState) (frames : List (List Nat)) (h : s.suppressed = true) :
    segRun rmsOf s frames = (s, []) :=
  segRun_of_suppressed rmsOf s frames h

/-- Witness for `segmenter_suppression_invariant`: a suppressed state with
a nonempty buffer and two high-energy frames. -/
theorem segmenter_suppression_witness :
    segRun (fun _ => 300)
      { buffer := [1, 2], speaking := true, silence := 3, suppressed := true }
      [[5], [6]] =
    ({ buffer := [1, 2], speaking := true, silence := 3, suppressed := true }, []) :=
  segmenter_suppression_invariant (fun _ => 300)
    { buffer := [1, 2], speaking := true, silence := 3, suppressed := true }
    [[5], [6]] rfl

/-- Running the segmenter over a concatenation splits into the two runs. -/
theorem segRun_append (rmsOf : List Nat → Nat) (s : SegState)
    (xs ys : List (List Nat)) :
    segRun rmsOf s (xs ++ ys) =
      ((segRun rmsOf (segRun rmsOf s xs).1 ys).1,
       (segRun rmsOf s xs).2 ++ (segRun rmsOf (segRun rmsOf s xs).1 ys).2) := by
  induction xs generalizing s with
  | nil => simp [segRun]
  | cons f fs ih =>
    simp only [List.cons_append, segRun, List.append_eq, ih, List.append_assoc]

/-- A nonempty high-energy frame from any non-suppressed state: bytes are
appended, speaking is set, the silence counter resets, nothing is emitted. -/
theorem segStep_speech (rmsOf : List Nat → Nat) (b : List Nat) (sp : Bool)
    (c : Nat) (p : List Nat) (hp : p ≠ []) (hrms : 200 < rmsOf p) :
    segStep rmsOf { buffer := b, speaking := sp, silence := c, suppressed := false } p =
      ({ buffer := b ++ p, speaking := true, silence := 0, suppressed := false }, none) := by
  simp [segStep, hp, hrms]

/-- A run of high-energy frames starting from a speaking, zero-silence,
non-suppressed state accumulates all bytes and emits nothing. -/
theorem segRun_speech (rmsOf : List Nat → Nat) (fs : List (List Nat))
    (b : List Nat) (hall : ∀ f ∈ fs, 200 < rmsOf f ∧ f ≠ []) :
    segRun rmsOf { buffer := b, speaking := true, silence := 0, suppressed := false } fs =
      ({ buffer := b ++ fs.flatten, speaking := true, silence := 0,
         suppressed := false }, []) := by
  induction fs generalizing b with
  | nil => simp [segRun]
  | cons f fs ih =>
    obtain ⟨⟨hrms, hp⟩, hall2⟩ := List.forall_mem_cons.mp hall
    simp only [segRun, segStep_speech rmsOf b true 0 f hp hrms,
      ih (b ++ f) hall2, Option.toList, List.nil_append, List.flatten_cons,
      List.append_assoc]

/-- A nonempty low-energy frame from a speaking, non-suppressed state with
fewer than 29 prior silent frames: bytes are appended, the counter is
incremented, nothing is emitted. -/
theorem segStep_silence (rmsOf : List Nat → Nat) (b : List Nat) (c : Nat)
    (p : List Nat) (hp : p ≠ []) (hrms : rmsOf p ≤ 200) (hc : c + 1 < 30) :
    segStep rmsOf { buffer := b, speaking := true, silence := c, suppressed := false } p =
      ({ buffer := b ++ p, speaking := true, silence := c + 1,
         suppressed := false }, none) := by
  have h1 : ¬(200 < rmsOf p) := Nat.not_lt.mpr hrms
  have h2 : ¬(30 ≤ c + 1) := Nat.not_le.mpr hc
  simp [segStep, hp, h1, h2]

/-- The emitting step: a nonempty low-energy frame from a speaking state
whose counter reaches the silence threshold with strictly more than 3200
buffered bytes emits the buffer and resets into the suppressed state. -/
theorem segStep_silence_emit (rmsOf : List Nat → Nat) (b : List Nat) (c : Nat)
    (p : List Nat) (hp : p ≠ []) (hrms : rmsOf p ≤ 200) (hc : 30 ≤ c + 1)
    (hlen : 3200 < (b ++ p).length) :
    segStep rmsOf { buffer := b, speaking := true, silence := c, suppressed := false } p =
      ({ buffer := [], speaking := false, silence := 0, suppressed := true },
        some (b ++ p)) := by
  have h1 : ¬(200 < rmsOf p) := Nat.not_lt.mpr hrms
  have hlen2 : 3200 < b.length + p.length := by simpa using hlen
  simp [segStep, hp, h1, hc, hlen2]

/-- A run of low-energy frames from a speaking, non-suppressed state that
never reaches the silence threshold accumulates bytes and counts frames,
emitting nothing. -/
theorem segRun_silence (rmsOf : List Nat → Nat) (fs : List (List Nat))
    (b : List Nat) (c : Nat) (hall : ∀ f ∈ fs, rmsOf f ≤ 200 ∧ f ≠ [])
    (hc : c + fs.length < 30) :
    segRun rmsOf { buffer := b, speaking := true, silence := c, suppressed := false } fs =
      ({ buffer := b ++ fs.flatten, speaking := true, silence := c + fs.length,
         suppressed := false }, []) := by
  induction fs generalizing b c with
  | nil => simp [segRun]
  | cons f fs ih =>
    obtain ⟨⟨hrms, hp⟩, hall2⟩ := List.forall_mem_cons.mp hall
    rw [List.length_cons] at hc
    have hstep := segStep_silence rmsOf b c f hp hrms (by omega)
    have hrest := ih (b ++ f) (c + 1) hall2 (by omega)
    have harith : c + 1 + fs.length = c + (fs.length + 1) := by omega
    simp only [segRun, hstep, hrest, Option.toList, List.nil_append,
      List.flatten_cons, List.append_assoc, List.length_cons, harith]

/-- Core segmenter emission behavior: from the initial state, a nonempty
run of high-energy frames followed by at least 30 low-energy frames, with
strictly more than 3200 bytes accumulated by the 30th silent frame, emits
exactly one utterance — at the 30th silent frame — consisting of the
speech frames and the first 30 silent frames, and ends reset and
suppressed (later frames are discarded). -/
theorem segRun_emission_core (rmsOf : List Nat → Nat)
    (speech sil : List (List Nat))
    (hs : speech ≠ [])
    (hhigh : ∀ f ∈ speech, 200 < rmsOf f ∧ f ≠ [])
    (hlow : ∀ f ∈ sil, rmsOf f ≤ 200 ∧ f ≠ [])
    (hm : 30 ≤ sil.length)
    (hbytes : 3200 < speech.flatten.length + ((sil.take 30).flatten).length) :
    segRun rmsOf segInit (speech ++ sil) =
      ({ buffer := [], speaking := false, silence := 0, suppressed := true },
       [speech.flatten ++ (sil.take 30).flatten]) := by
  obtain ⟨s0, srest, rfl⟩ : ∃ a l, speech = a :: l := by
    cases speech with
    | nil => exact absurd rfl hs
    | cons a l => exact ⟨a, l, rfl⟩
  obtain ⟨⟨hrms0, hp0⟩, hhigh2⟩ := List.forall_mem_cons.mp hhigh
  have h29 : (29 : Nat) < sil.length := by omega
  have htake30 : sil.take 30 = sil.take 29 ++ [sil[29]] := by
    rw [List.take_succ, List.getElem?_eq_getElem h29]
    rfl
  have hlow29 : ∀ f ∈ sil.take 29, rmsOf f ≤ 200 ∧ f ≠ [] :=
    fun f hf => hlow f (List.take_subset 29 sil hf)
  have hlowf30 := hlow sil[29] (List.getElem_mem h29)
  have hlen29 : (sil.take 29).length = 29 := by
    rw [List.length_take]; omega
  have hsilsplit : sil = sil.take 29 ++ (sil[29] :: sil.drop 30) := by
    conv_lhs => rw [← List.take_append_drop 29 sil]
    rw [List.drop_eq_getElem_cons h29]
  have step0 : segStep rmsOf segInit s0 =
      ({ buffer := s0, speaking := true, silence := 0, suppressed := false },
        none) := by
    simpa [segInit] using segStep_speech rmsOf [] false 0 s0 hp0 hrms0
  have runSpeech := segRun_speech rmsOf srest s0 hhigh2
  have runSil29 : segRun rmsOf
      { buffer := s0 ++ srest.flatten, speaking := true, silence := 0,
        suppressed := false } (sil.take 29) =
      ({ buffer := (s0 ++ srest.flatten) ++ (sil.take 29).flatten,
         speaking := true, silence := 29, suppressed := false }, []) := by
    have h := segRun_silence rmsOf (sil.take 29) (s0 ++ srest.flatten) 0
      hlow29 (by rw [hlen29]; omega)
    rw [hlen29] at h
    simpa using h
  have hblen : 3200 <
      (((s0 ++ srest.flatten) ++ (sil.take 29).flatten) ++ sil[29]).length := by
    have hfl : (sil.take 30).flatten = (sil.take 29).flatten ++ sil[29] := by
      rw [htake30, List.flatten_append]
      simp
    rw [hfl] at hbytes
    simp only [List.flatten_cons, List.length_append] at hbytes ⊢
    omega
  have stepEmit := segStep_silence_emit rmsOf
    ((s0 ++ srest.flatten) ++ (sil.take 29).flatten) 29 (sil[29])
    hlowf30.2 hlowf30.1 (by omega) hblen
  have runDrop := segRun_of_suppressed rmsOf
    { buffer := [], speaking := false, silence := 0, suppressed := true }
    (sil.drop 30) rfl
  have e1 : segRun rmsOf segInit ((s0 :: srest) ++ sil) =
      segRun rmsOf
        { buffer := s0, speaking := true, silence := 0, suppressed := false }
        (srest ++ sil) := by
    rw [List.cons_append]
    simp only [segRun, step0, Option.toList, List.nil_append]
  have e2 : segRun rmsOf
        { buffer := s0, speaking := true, silence := 0, suppressed := false }
        (srest ++ sil) =
      segRun rmsOf
        { buffer := s0 ++ srest.flatten, speaking := true, silence := 0,
          suppressed := false }
        sil := by
    rw [segRun_append, runSpeech]
    simp
  have e3 : segRun rmsOf
        { buffer := s0 ++ srest.flatten, speaking := true, silence := 0,
          suppressed := false }
        sil =
      segRun rmsOf
        { buffer := (s0 ++ srest.flatten) ++ (sil.take 29).flatten,
          speaking := true, silence := 29, suppressed := false }
        (sil[29] :: sil.drop 30) := by
    conv_lhs => rw [hsilsplit]
    rw [segRun_append, runSil29]
    simp
  have e4 : segRun rmsOf
        { buffer := (s0 ++ srest.flatten) ++ (sil.take 29).flatten,
          speaking := true, silence := 29, suppressed := false }
        (sil[29] :: sil.drop 30) =
      ({ buffer := [], speaking := false, silence := 0, suppressed := true },
       [((s0 ++ srest.flatten) ++ (sil.take 29).flatten) ++ sil[29]]) := by
    simp only [segRun, stepEmit, runDrop, Option.toList]
    simp
  have hu : s0 ++ srest.flatten ++ (List.take 29 sil).flatten ++ sil[29]
      = (s0 :: srest).flatten ++ (List.take 30 sil).flatten := by
    rw [htake30]
    simp only [List.flatten_cons, List.flatten_append, List.flatten_nil,
      List.append_nil, List.append_assoc]
  rw [e1, e2, e3, e4, hu]

/-- Claim C3 (amended): from the initial non-suppressed state, for N (at
least 1) high-energy frames followed by M (at least 30) low-energy frames,
all nonempty, such that the bytes accumulated at the 30th silent frame
strictly exceed 3200, the segmenter emits exactly one utterance, whose
bytes are the concatenation of the N speech frames and the first 30
silent frames (hence of all N+M frames when M = 30); the later silent
frames are discarded, and afterwards the buffer is empty, the speaking
flag false, the silence counter 0, and the suppressed flag set. -/
theorem segmenter_emission_amended (rmsOf : List Nat → Nat)
    (speech sil : List (List Nat))
    (hs : speech ≠ [])
    (hhigh : ∀ f ∈ speech, 200 < rmsOf f ∧ f ≠ [])
    (hlow : ∀ f ∈ sil, rmsOf f ≤ 200 ∧ f ≠ [])
    (hm : 30 ≤ sil.length)
    (hbytes : 3200 < speech.flatten.length + ((sil.take 30).flatten).length) :
    segRun rmsOf segInit (speech ++ sil) =
      ({ buffer := [], speaking := false, silence := 0, suppressed := true },
       [speech.flatten ++ (sil.take 30).flatten]) :=
  segRun_emission_core rmsOf speech sil hs hhigh hlow hm hbytes

/-- A concrete energy function: a frame is speech exactly when its first
byte is 1. -/
def rmsHead : List Nat → Nat := fun p => if p.headD 0 = 1 then 300 else 0

/-- One speech frame of 3171 bytes. -/
def speechW : List (List Nat) := [1 :: List.replicate 3170 1]

/-- Thirty silent frames of one byte each. -/
def silW : List (List Nat) := List.replicate 30 [0]

/-- Thirty-one silent frames of one byte each. -/
def silC : List (List Nat) := List.replicate 31 [0]

theorem speechW_flatten_length : speechW.flatten.length = 3171 := by
  unfold speechW
  rw [List.flatten_cons, List.flatten_nil, List.append_nil, List.length_cons,
    List.length_replicate]

theorem speechW_high : ∀ f ∈ speechW, 200 < rmsHead f ∧ f ≠ [] := by
  intro f hf
  rw [speechW, List.mem_singleton] at hf
  subst hf
  exact ⟨by rw [show rmsHead (1 :: List.replicate 3170 1) = 300 from rfl]; omega,
    List.cons_ne_nil _ _⟩

theorem replicate_sil_low (n : Nat) :
    ∀ f ∈ List.replicate n ([0] : List Nat), rmsHead f ≤ 200 ∧ f ≠ [] := by
  intro f hf
  have hf2 := List.eq_of_mem_replicate hf
  subst hf2
  exact ⟨by rw [show rmsHead [0] = 0 from rfl]; omega, List.cons_ne_nil _ _⟩

theorem replicate_sil_take_flatten_length (n : Nat) (h : 30 ≤ n) :
    (((List.replicate n ([0] : List Nat)).take 30).flatten).length = 30 := by
  rw [List.take_replicate, show (30 ⊓ n) = 30 by omega, List.length_flatten,
    List.map_replicate, List.sum_replicate, smul_eq_mul]
  rfl

/-- Witness for `segmenter_emission_amended`: one 3171-byte speech frame
followed by exactly 30 one-byte silent frames (3201 bytes in total). -/
theorem segmenter_emission_witness :
    segRun rmsHead segInit (speechW ++ silW) =
      ({ buffer := [], speaking := false, silence := 0, suppressed := true },
       [speechW.flatten ++ (silW.take 30).flatten]) :=
  segmenter_emission_amended rmsHead speechW silW
    (by rw [speechW]; exact List.cons_ne_nil _ _)
    speechW_high
    (replicate_sil_low 30)
    (by rw [silW, List.length_replicate])
    (by
      have l2 := replicate_sil_take_flatten_length 30 (by omega)
      rw [speechW_flatten_length, show silW = List.replicate 30 [0] from rfl, l2]
      omega)

/-- Counterexample to claim C3 as stated: with one 3171-byte speech frame
followed by 31 one-byte silent frames, the emitted utterance is not the
concatenation of all N+M frames — the 31st silent frame is dropped, the
utterance being emitted already at the 30th silent frame. -/
theorem segmenter_emission_cex :
    (segRun rmsHead segInit (speechW ++ silC)).2 ≠ [(speechW ++ silC).flatten] := by
  have hcore := segRun_emission_core rmsHead speechW silC
    (by rw [speechW]; exact List.cons_ne_nil _ _)
    speechW_high
    (replicate_sil_low 31)
    (by rw [silC, List.length_replicate]; omega)
    (by
      have l2 := replicate_sil_take_flatten_length 31 (by omega)
      rw [speechW_flatten_length, show silC = List.replicate 31 [0] from rfl, l2]
      omega)
  rw [hcore]
  intro heq
  have heq2 : speechW.flatten ++ (silC.take 30).flatten = (speechW ++ silC).flatten :=
    congrArg (fun l => List.headD l []) heq
  have hlen := congrArg List.length heq2
  have l2 : ((silC.take 30).flatten).length = 30 := by
    rw [show silC = List.replicate 31 [0] from rfl]
    exact replicate_sil_take_flatten_length 31 (by omega)
  have l3 : ((speechW ++ silC).flatten).length = 3202 := by
    rw [List.flatten_append, List.length_append, speechW_flatten_length,
      show silC = List.replicate 31 [0] from rfl, List.length_flatten,
      List.map_replicate, List.sum_replicate, smul_eq_mul]
    rfl
  rw [List.length_append, speechW_flatten_length, l2, l3] at hlen
  omega

/-! ### Turn Pipeline entry points -/

/-- Claim C9: if the session exists and speech-to-text raises, the audio
turn returns the fixed apologetic fallback with its synthesized audio, the
session store (hence the conversation history) is unchanged, the
conversation engine is never invoked, and the only text synthesized is the
fallback itself (no turn-response synthesis). -/
theorem stt_error_fallback
    (stt : List Nat → Except String String)
    (chatFn : List Message → String → Except String (String × List Message × List String))
    (tts : String → Except String String)
    (sessions : List (String × CallSession)) (sid : String) (audio : List Nat)
    (sess : CallSession) (fbAudio e : String)
    (hs : getSession sessions sid = some sess)
    (hstt : stt audio = .error e)
    (htts : tts sttFallback = .ok fbAudio) :
    process_customer_audio stt chatFn tts sessions sid audio =
      ⟨.ok (sttFallback, fbAudio), sessions, 1, 0, [sttFallback]⟩ := by
  unfold process_customer_audio
  rw [hs, hstt, htts]

/-- A sample stored session for concrete witnesses. -/
def sessEx : CallSession :=
  { call_sid := "c1", customer_phone := some "+15550001111",
    conversation_history := [msgU], is_active := true }

/-- Witness for `stt_error_fallback` at a concrete one-session store with
a raising speech-to-text backend. -/
theorem stt_error_fallback_witness :
    process_customer_audio (fun _ => .error "bad frame")
      (fun _ _ => .ok ("ok", [], []))
      (fun t => .ok (String.append "audio-" t))
      [("c1", sessEx)] "c1" [7, 7] =
      ⟨.ok (sttFallback, String.append "audio-" sttFallback),
       [("c1", sessEx)], 1, 0, [sttFallback]⟩ :=
  stt_error_fallback (fun _ => .error "bad frame")
    (fun _ _ => .ok ("ok", [], []))
    (fun t => .ok (String.append "audio-" t))
    [("c1", sessEx)] "c1" [7, 7] sessEx
    (String.append "audio-" sttFallback) "bad frame" rfl rfl rfl

/-- Appending a fresh binding at the end of a store without the key makes
lookup find it. -/
theorem getSession_append_of_none (sessions : List (String × CallSession))
    (sid : String) (v : CallSession)
    (h : getSession sessions sid = none) :
    getSession (sessions ++ [(sid, v)]) sid = some v := by
  induction sessions with
  | nil => simp [getSession]
  | cons p t ih =>
    cases hpq : (p.1 == sid) with
    | true =>
      exfalso
      rw [getSession, List.find?_cons, hpq] at h
      simp at h
    | false =>
      rw [getSession, List.find?_cons, hpq] at h
      rw [List.cons_append, getSession, List.find?_cons, hpq]
      exact ih h

/-- Overwriting a key present in the store makes lookup observe the new
session. -/
theorem getSession_setSession (sessions : List (String × CallSession))
    (sid : String) (s v : CallSession)
    (h : getSession sessions sid = some v) :
    getSession (setSession sessions sid s) sid = some s := by
  induction sessions with
  | nil => simp [getSession] at h
  | cons p t ih =>
    rw [getSession, List.find?_cons] at h
    rw [setSession, List.map_cons]
    cases hpq : (p.1 == sid) with
    | true =>
      rw [if_pos (by simp [hpq])]
      rw [getSession, List.find?_cons]
      simp
    | false =>
      rw [hpq] at h
      rw [if_neg (by simp [hpq])]
      rw [getSession, List.find?_cons, hpq]
      exact ih h

/-- Claim C10: for a call identifier with no stored session, the audio
entry point returns the pair of empty strings, leaves the store untouched
and invokes no collaborator at all, whereas the text entry point invokes
the conversation engine exactly once and leaves a session stored under the
identifier. -/
theorem unknown_session_behavior
    (stt : List Nat → Except String String)
    (chatFn : List Message → String → Except String (String × List Message × List String))
    (tts : String → Except String String)
    (sessions : List (String × CallSession)) (sid : String) (audio : List Nat)
    (text : String)
    (h : getSession sessions sid = none) :
    process_customer_audio stt chatFn tts sessions sid audio =
      ⟨.ok ("", ""), sessions, 0, 0, []⟩ ∧
    (process_customer_text chatFn tts sessions sid text).chatCalls = 1 ∧
    (getSession (process_customer_text chatFn tts sessions sid text).sessions
      sid).isSome = true := by
  refine ⟨?_, ?_⟩
  · unfold process_customer_audio
    rw [h]
  · have hnew : getSession (sessions ++ [(sid, newSession sid)]) sid
        = some (newSession sid) := getSession_append_of_none sessions sid _ h
    cases hc : chatFn (newSession sid).conversation_history text with
    | error e =>
      simp only [process_customer_text, h, Option.getD_none, hc]
      refine ⟨trivial, ?_⟩
      rw [hnew]
      rfl
    | ok v =>
      obtain ⟨resp, hist, tools⟩ := v
      cases ht : tts resp with
      | error e2 =>
        simp only [process_customer_text, h, Option.getD_none, hc, ht]
        refine ⟨trivial, ?_⟩
        rw [getSession_setSession _ _ _ _ hnew]
        rfl
      | ok audio2 =>
        simp only [process_customer_text, h, Option.getD_none, hc, ht]
        refine ⟨trivial, ?_⟩
        rw [getSession_setSession _ _ _ _ hnew]
        rfl

/-- Witness for `unknown_session_behavior` at the empty store. -/
theorem unknown_session_behavior_witness :
    process_customer_audio (fun _ => .ok "t")
      (fun _ _ => .ok ("ok", [], []))
      (fun t => .ok t) [] "c9" [1, 2] =
      ⟨.ok ("", ""), [], 0, 0, []⟩ ∧
    (process_customer_text (fun _ _ => .ok ("ok", [], []))
      (fun t => .ok t) [] "c9" "hello").chatCalls = 1 ∧
    (getSession (process_customer_text (fun _ _ => .ok ("ok", [], []))
      (fun t => .ok t) [] "c9" "hello").sessions "c9").isSome = true :=
  unknown_session_behavior (fun _ => .ok "t")
    (fun _ _ => .ok ("ok", [], []))
    (fun t => .ok t) [] "c9" [1, 2] "hello" rfl
